import Mathlib

/-!
Verification of the ferrumfix repository core: the `fasters` tag-value codec
(`src/fasters/src/codec/tagvalue.rs`) and the `fefix` session layer
(`src/crates/fefix/src/session/connection.rs`, `event_loop.rs`).

Bytes are modelled as `Nat` (values 0..255 on the wire), byte strings as
`List Nat`. Machine counters (`u64` sequence numbers) are modelled as `Nat`;
no operation in the verified code paths can overflow them, so no wrap is
applied. Fallible Rust code returns `Option`/`Except`; a Rust `panic`
(a failed `unwrap`) is modelled as the `none` of an outer `Option` layer.
-/

namespace Bytes

/-- ASCII decimal digit test, matching Rust's `char::to_digit(10)` domain. -/
def isDigit (b : Nat) : Bool := 48 ≤ b && b ≤ 57

/-- Little-endian decimal digits of `n`, with structural fuel so that the
kernel can evaluate it (`fuel ≥ n` makes the fuel irrelevant). -/
def natDigitsRevGo (fuel n : Nat) : List Nat :=
  match fuel with
  | 0 => []
  | fuel + 1 => if n = 0 then [] else n % 10 :: natDigitsRevGo fuel (n / 10)

/-- Decimal byte string of a natural number, as produced by Rust's
`to_string` on an unsigned integer. -/
def natBytes (n : Nat) : List Nat :=
  if n = 0 then [48] else ((natDigitsRevGo n n).reverse).map (fun d => d + 48)

theorem natDigitsRevGo_eq_digits :
    ∀ fuel n : Nat, n ≤ fuel → natDigitsRevGo fuel n = Nat.digits 10 n := by
  intro fuel
  induction fuel with
  | zero =>
    intro n hn
    interval_cases n
    simp [natDigitsRevGo, Nat.digits_zero]
  | succ fuel ih =>
    intro n hn
    rw [natDigitsRevGo]
    by_cases h0 : n = 0
    · subst h0; simp [Nat.digits_zero]
    · rw [if_neg h0]
      rw [Nat.digits_def' (by norm_num : (1 : Nat) < 10) (Nat.pos_of_ne_zero h0)]
      have : n / 10 ≤ fuel := by
        have := Nat.div_lt_self (Nat.pos_of_ne_zero h0) (by norm_num : (1 : Nat) < 10)
        omega
      rw [ih _ this]

/-- `natBytes` in terms of `Nat.digits`. -/
theorem natBytes_eq_digits (n : Nat) :
    natBytes n = if n = 0 then [48] else ((Nat.digits 10 n).reverse).map (fun d => d + 48) := by
  rw [natBytes, natDigitsRevGo_eq_digits n n le_rfl]

/-- Decimal byte string of a signed integer, as produced by Rust's
`to_string` on `i64`. -/
def intBytes (i : Int) : List Nat :=
  if i < 0 then 45 :: natBytes i.natAbs else natBytes i.toNat

/-- Accumulating decimal fold, the shape used by the decoders below. -/
def foldDigits (acc : Nat) : List Nat → Nat
  | [] => acc
  | b :: rest => foldDigits (acc * 10 + (b - 48)) rest

/-- Value of an all-digit byte string; `none` when empty or a non-digit
appears (Rust's integer `parse` rejects both). -/
def digitsVal : List Nat → Option Nat
  | [] => none
  | bs => if bs.all isDigit then some (foldDigits 0 bs) else none

/-- Rust `i64::from_str`: optional sign, then decimal digits, with the
two's-complement range check. -/
def parseI64 (bs : List Nat) : Option Int :=
  match bs with
  | 43 :: rest =>
    (digitsVal rest).bind (fun n => if (n : Int) ≤ 2 ^ 63 - 1 then some (n : Int) else none)
  | 45 :: rest =>
    (digitsVal rest).bind (fun n => if (n : Int) ≤ 2 ^ 63 then some (-(n : Int)) else none)
  | _ =>
    (digitsVal bs).bind (fun n => if (n : Int) ≤ 2 ^ 63 - 1 then some (n : Int) else none)

/-- Rust `u64::from_str`: optional plus sign, decimal digits, range check. -/
def parseU64 (bs : List Nat) : Option Nat :=
  match bs with
  | 43 :: rest => (digitsVal rest).bind (fun n => if n ≤ 2 ^ 64 - 1 then some n else none)
  | _ => (digitsVal bs).bind (fun n => if n ≤ 2 ^ 64 - 1 then some n else none)

/-- Continuation byte of a UTF-8 sequence. -/
def isCont (b : Nat) : Bool := 128 ≤ b && b ≤ 191

/-- Range bound of the first continuation byte of a multi-byte UTF-8
sequence led by `b` (this is where overlongs, surrogates and values above
U+10FFFF are rejected), paired with the number of further plain
continuation bytes. -/
def utf8Lead (b : Nat) : Option (Nat × Nat × Nat) :=
  if 194 ≤ b && b ≤ 223 then some (128, 191, 0)
  else if b = 224 then some (160, 191, 1)
  else if 225 ≤ b && b ≤ 236 then some (128, 191, 1)
  else if b = 237 then some (128, 159, 1)
  else if 238 ≤ b && b ≤ 239 then some (128, 191, 1)
  else if b = 240 then some (144, 191, 2)
  else if 241 ≤ b && b ≤ 243 then some (128, 191, 2)
  else if b = 244 then some (128, 143, 2)
  else none

/-- Consumes the continuation bytes of one multi-byte UTF-8 sequence with
lead byte `b`, returning the remaining input. -/
def utf8Step (b : Nat) (rest : List Nat) : Option (List Nat) :=
  match utf8Lead b, rest with
  | some (lo, hi, 0), c1 :: r1 =>
    if lo ≤ c1 && c1 ≤ hi then some r1 else none
  | some (lo, hi, 1), c1 :: c2 :: r2 =>
    if (lo ≤ c1 && c1 ≤ hi) && isCont c2 then some r2 else none
  | some (lo, hi, 2), c1 :: c2 :: c3 :: r3 =>
    if ((lo ≤ c1 && c1 ≤ hi) && isCont c2) && isCont c3 then some r3 else none
  | _, _ => none

theorem utf8Step_length {b : Nat} {rest r : List Nat} (h : utf8Step b rest = some r) :
    r.length ≤ rest.length := by
  simp only [utf8Step] at h
  split at h
  all_goals (try split at h)
  all_goals (first
    | (injection h with h; subst h; simp only [List.length_cons]; omega)
    | (injection h))

/-- Fueled worker for UTF-8 validity: each step consumes at least the lead
byte, so any `fuel > bs.length` behaves identically. -/
def validUtf8Go (fuel : Nat) (bs : List Nat) : Bool :=
  match fuel, bs with
  | _, [] => true
  | 0, _ :: _ => false
  | fuel + 1, b :: rest =>
    if b ≤ 127 then validUtf8Go fuel rest
    else
      match utf8Step b rest with
      | some r => validUtf8Go fuel r
      | none => false

/-- UTF-8 validity as checked by Rust's `str::from_utf8`. -/
def validUtf8 (bs : List Nat) : Bool := validUtf8Go (bs.length + 1) bs

theorem validUtf8Go_of_ascii :
    ∀ (fuel : Nat) (bs : List Nat), bs.length < fuel → (∀ b ∈ bs, b ≤ 127) →
      validUtf8Go fuel bs = true := by
  intro fuel
  induction fuel with
  | zero => intro bs hlen _; omega
  | succ fuel ih =>
    intro bs hlen h
    match bs with
    | [] => rfl
    | b :: rest =>
      have hb : b ≤ 127 := h b (List.mem_cons_self b rest)
      rw [validUtf8Go]
      rw [if_pos hb]
      refine ih rest ?_ (fun x hx => h x (List.mem_cons_of_mem b hx))
      simp only [List.length_cons] at hlen
      omega

/-- An all-ASCII byte string is valid UTF-8. -/
theorem validUtf8_of_ascii : ∀ bs : List Nat, (∀ b ∈ bs, b ≤ 127) → validUtf8 bs = true := by
  intro bs h
  exact validUtf8Go_of_ascii (bs.length + 1) bs (by omega) h

/-- Splits a byte string into its count of leading ASCII digits and the
remainder. -/
def splitDigits : List Nat → Nat × List Nat
  | [] => (0, [])
  | b :: r =>
    if isDigit b then
      let p := splitDigits r
      (p.1 + 1, p.2)
    else (0, b :: r)

/-- The tail of an exponent part after `e`/`E`: an optional sign and then
one or more digits, consuming the whole remainder. -/
def isExpTail (bs : List Nat) : Bool :=
  let bs2 := match bs with
    | 43 :: r => r
    | 45 :: r => r
    | _ => bs
  let p := splitDigits bs2
  decide (0 < p.1) && decide (p.2 = [])

/-- An optional exponent part ending the literal. -/
def isExpOpt : List Nat → Bool
  | [] => true
  | 101 :: r => isExpTail r
  | 69 :: r => isExpTail r
  | _ => false

/-- The `Number` production of Rust's `f64::from_str` grammar:
`Digit+ ('.' Digit*)? Exp?` or `'.' Digit+ Exp?`. -/
def isNumberLit (bs : List Nat) : Bool :=
  let p := splitDigits bs
  if 0 < p.1 then
    match p.2 with
    | 46 :: r2 => isExpOpt (splitDigits r2).2
    | r2 => isExpOpt r2
  else
    match bs with
    | 46 :: r2 =>
      let q := splitDigits r2
      decide (0 < q.1) && isExpOpt q.2
    | _ => false

/-- Case-insensitive `inf`, `infinity` or `nan`. -/
def isInfNan (bs : List Nat) : Bool :=
  let lower := bs.map (fun b => if 65 ≤ b ∧ b ≤ 90 then b + 32 else b)
  lower = [105, 110, 102]
    || lower = [105, 110, 102, 105, 110, 105, 116, 121]
    || lower = [110, 97, 110]

/-- The strings Rust's `f64::from_str` accepts:
`Sign? (inf | infinity | nan | Number)` (std library grammar); every
accepted string parses successfully, so parseability is exactly this
grammar check. -/
def isFloatLit (bs : List Nat) : Bool :=
  let bs2 := match bs with
    | 43 :: r => r
    | 45 :: r => r
    | _ => bs
  isInfNan bs2 || isNumberLit bs2

end Bytes

namespace Fasters

/-- Base types of the tag dictionary (`dictionary::BaseType`). -/
inductive BaseType
  | tint
  | tfloat
  | tchar
  | tstring
  | tdata
deriving DecidableEq, Repr

/-- Field values (`slr::FixFieldValue`).  `vchar` holds the byte read by the
decoder (`buf[0] as char`); `vfloat` holds the decimal text of the float, the
form both `f64::to_string` and the wire use; `vgroup` is the repeating-group
handle, whose payload is irrelevant here (the encoder panics on it and the
decoder never builds one). -/
inductive FixVal
  | vchar (c : Nat)
  | vstr (s : List Nat)
  | vint (i : Int)
  | vfloat (repr : List Nat)
  | vdata (d : List Nat)
  | vgroup
deriving DecidableEq, Repr

/-- Decoder/encoder errors (`tagvalue::Error`). -/
inductive DecErr
  | fieldWithoutValue (tag : Nat)
  | repeatedTag (tag : Nat)
  | eof
  | invalidStandardHeader
  | invalidStandardTrailer
  | invalidChecksum (expected actual : Nat)
  | synErr
deriving DecidableEq, Repr

/-- `slr::Message` (not under `src/`).  Modelled from the spec: a message is a
mapping from tag number to one or more value slots; `set_field` appends a
slot and field iteration follows insertion order. -/
def SlrMessage := List (Nat × FixVal)

/-- Modelled from the spec: `slr::Message::get_field` returns the slot stored
for a tag. -/
def getField (m : SlrMessage) (tag : Nat) : Option FixVal :=
  (m.find? (fun f => f.1 = tag)).map (fun f => f.2)

/-- The tag-parsing loop of `FieldIter::next`: bytes are consumed until end
of input or `=` (0x3D); every other byte must be an ASCII digit, else the
source panics on `to_digit(10).unwrap()` (modelled as `none`). -/
def readTag (acc : Nat) : List Nat → Option (Nat × List Nat)
  | [] => some (acc, [])
  | b :: rest =>
    if b = 61 then some (acc, rest)
    else if Bytes.isDigit b then readTag (acc * 10 + (b - 48)) rest
    else none

/-- The value-reading loop of `FieldIter::next` for non-`Data` fields: bytes
are consumed until the separator; end of input yields `Error::Eof`
(modelled as `none`). -/
def readUntilSep (sep : Nat) : List Nat → Option (List Nat × List Nat)
  | [] => none
  | b :: rest =>
    if b = sep then some (([] : List Nat), rest)
    else (readUntilSep sep rest).map (fun p => (b :: p.1, p.2))

/-- `TagLookupPredetermined::lookup`: five version-negotiation tags are
rejected (`none`; the caller's `unwrap` then panics), every other tag maps to
its dictionary base type, defaulting to `String`.  The XML-loaded `Dictionary`
is an external collaborator and is a parameter `dict`. -/
def tagLookup (dict : Nat → Option BaseType) (tag : Nat) : Option BaseType :=
  if tag = 1156 ∨ tag = 1129 ∨ tag = 1137 ∨ tag = 1407 ∨ tag = 1408 then none
  else some ((dict tag).getD BaseType.tstring)

/-- `field_value`: converts raw value bytes at a base type.  `none` models
`Error::Syntax`, which the caller of the source immediately `unwrap`s into a
panic.  A float parses exactly when the bytes are UTF-8 and match the
`f64::from_str` grammar (`Bytes.isFloatLit`); the parsed value `vfloat`
carries the literal text, the form the wire and `to_string` share. -/
def fieldValue (bt : BaseType) (buf : List Nat) : Option FixVal :=
  match bt with
  | BaseType.tchar =>
    match buf with
    | b :: _ => some (FixVal.vchar b)
    | [] => none
  | BaseType.tstring =>
    if Bytes.validUtf8 buf then some (FixVal.vstr buf) else none
  | BaseType.tdata => some (FixVal.vdata buf)
  | BaseType.tfloat =>
    if Bytes.validUtf8 buf && Bytes.isFloatLit buf then some (FixVal.vfloat buf) else none
  | BaseType.tint => (Bytes.parseI64 buf).map FixVal.vint

/-- State of a `FieldIter` over an in-memory slice: the unread bytes, the
`is_last` flag, the `data_length` register and the rolling checksum
(`ChecksumAlgoStd`: running sum mod 256 and window length). -/
structure IterSt where
  bytes : List Nat
  isLast : Bool
  dataLength : Nat
  cksum : Nat
  wlen : Nat
deriving DecidableEq, Repr

/-- Outcome of one `FieldIter::next` call. -/
inductive NextRes
  | stop
  | fail (e : DecErr)
  | yielded (st : IterSt) (tag : Nat) (v : FixVal)
  | panicked
deriving DecidableEq, Repr

/-- `FieldIter::next` (`src/fasters/src/codec/tagvalue.rs`): parse a tag, set
`is_last` on tag 10, stop on tag 0, look the tag up, then read the value.  A
`Data` field reads `data_length` bytes verbatim plus one further byte that
the source stores into `buffer[0]`, overwriting the first data byte; the
checksum rolls over the original data bytes and one separator.  Any other
field reads up to the separator and rolls the checksum over the value bytes.
An `Int` value updates `data_length` with the value cast `as u32`. -/
def fieldIterNext (dict : Nat → Option BaseType) (sep : Nat) (st : IterSt) : NextRes :=
  if st.isLast then NextRes.stop
  else
    match readTag 0 st.bytes with
    | none => NextRes.panicked
    | some (tag, rest) =>
      if tag = 0 then NextRes.stop
      else
        match tagLookup dict tag with
        | none => NextRes.panicked
        | some bt =>
          match bt with
          | BaseType.tdata =>
            if st.dataLength = 0 then NextRes.panicked
            else if rest.length < st.dataLength + 1 then NextRes.panicked
            else
              let dataBytes := rest.take st.dataLength
              let rest2 := rest.drop st.dataLength
              match rest2 with
              | [] => NextRes.panicked
              | t :: rest3 =>
                let buffer := t :: dataBytes.tail
                let ck := (st.cksum + dataBytes.sum + sep) % 256
                let wl := st.wlen + st.dataLength + 1
                NextRes.yielded
                  ⟨rest3, tag = 10, st.dataLength, ck, wl⟩ tag (FixVal.vdata buffer)
          | _ =>
            match readUntilSep sep rest with
            | none => NextRes.fail DecErr.eof
            | some (buf, rest2) =>
              let ck := (st.cksum + buf.sum) % 256
              let wl := st.wlen + buf.length
              match fieldValue bt buf with
              | none => NextRes.panicked
              | some v =>
                let dl := match v with
                  | FixVal.vint i => (i % (2 ^ 32 : Int)).toNat
                  | _ => st.dataLength
                NextRes.yielded ⟨rest2, tag = 10, dl, ck, wl⟩ tag v

theorem readTag_consumed {acc tag : Nat} : ∀ {bs rest : List Nat},
    readTag acc bs = some (tag, rest) → rest.length < bs.length ∨ bs = [] := by
  intro bs
  induction bs generalizing acc with
  | nil => intro rest h; exact Or.inr rfl
  | cons b bs ih =>
    intro rest h
    rw [readTag] at h
    by_cases h61 : b = 61
    · rw [if_pos h61] at h
      injection h with h
      injection h with h1 h2
      subst h2
      exact Or.inl (by simp)
    · rw [if_neg h61] at h
      by_cases hd : Bytes.isDigit b = true
      · rw [if_pos hd] at h
        rcases ih h with hlt | hnil
        · exact Or.inl (by simp; omega)
        · subst hnil
          rw [readTag] at h
          injection h with h
          injection h with h1 h2
          subst h2
          exact Or.inl (by simp)
      · rw [if_neg hd] at h
        exact absurd h (by simp)

theorem readTag_nil {acc tag : Nat} {rest : List Nat}
    (h : readTag acc ([] : List Nat) = some (tag, rest)) : tag = acc := by
  rw [readTag] at h
  injection h with h
  injection h with h1 h2
  exact h1.symm

theorem readUntilSep_consumed {sep : Nat} : ∀ {bs v rest : List Nat},
    readUntilSep sep bs = some (v, rest) → rest.length < bs.length := by
  intro bs
  induction bs with
  | nil => intro v rest h; exact absurd h (by simp [readUntilSep])
  | cons b bs ih =>
    intro v rest h
    rw [readUntilSep] at h
    by_cases hs : b = sep
    · rw [if_pos hs] at h
      injection h with h
      injection h with h1 h2
      subst h2
      simp
    · rw [if_neg hs] at h
      match hr : readUntilSep sep bs with
      | none => rw [hr] at h; exact absurd h (by simp)
      | some (v0, rest0) =>
        rw [hr] at h
        dsimp only [Option.map] at h
        injection h with h
        have h2 : rest0 = rest := congrArg Prod.snd h
        subst h2
        have := ih hr
        simp
        omega


/-- A yield of `FieldIter::next` strictly consumes input bytes. -/
theorem fieldIterNext_consumed {dict : Nat → Option BaseType} {sep : Nat}
    {st st2 : IterSt} {tag : Nat} {v : FixVal}
    (h : fieldIterNext dict sep st = NextRes.yielded st2 tag v) :
    st2.bytes.length < st.bytes.length := by
  rw [fieldIterNext] at h
  by_cases hlast : st.isLast = true
  · rw [if_pos hlast] at h
    exact absurd h (by simp)
  · rw [if_neg hlast] at h
    match ht : readTag 0 st.bytes with
    | none => rw [ht] at h; exact absurd h (by simp)
    | some (tag0, rest) =>
      rw [ht] at h
      dsimp only at h
      by_cases h0 : tag0 = 0
      · rw [if_pos h0] at h
        exact absurd h (by simp)
      · rw [if_neg h0] at h
        have hrest : rest.length < st.bytes.length := by
          rcases readTag_consumed ht with hlt | hnil
          · exact hlt
          · exact absurd (readTag_nil (hnil ▸ ht)) h0
        match hl : tagLookup dict tag0 with
        | none => rw [hl] at h; exact absurd h (by simp)
        | some BaseType.tdata =>
          rw [hl] at h
          dsimp only at h
          by_cases hdl : st.dataLength = 0
          · rw [if_pos hdl] at h
            exact absurd h (by simp)
          · rw [if_neg hdl] at h
            by_cases hlen : rest.length < st.dataLength + 1
            · rw [if_pos hlen] at h
              exact absurd h (by simp)
            · rw [if_neg hlen] at h
              match hr2 : rest.drop st.dataLength with
              | [] => rw [hr2] at h; exact absurd h (by simp)
              | t :: rest3 =>
                rw [hr2] at h
                dsimp only at h
                injection h with h1 h2 h3
                rw [← h1]
                have hdrop : (rest.drop st.dataLength).length = rest.length - st.dataLength :=
                  List.length_drop _ _
                rw [hr2] at hdrop
                simp only [List.length_cons] at hdrop
                simp only [List.length_cons]
                omega
        | some BaseType.tint =>
          rw [hl] at h
          dsimp only at h
          match hv : readUntilSep sep rest with
          | none => rw [hv] at h; exact absurd h (by simp)
          | some (buf, rest2) =>
            rw [hv] at h
            dsimp only at h
            match hf : fieldValue BaseType.tint buf with
            | none => rw [hf] at h; exact absurd h (by simp)
            | some v0 =>
              rw [hf] at h
              dsimp only at h
              injection h with h1 h2 h3
              rw [← h1]
              exact Nat.lt_trans (readUntilSep_consumed hv) hrest
        | some BaseType.tfloat =>
          rw [hl] at h
          dsimp only at h
          match hv : readUntilSep sep rest with
          | none => rw [hv] at h; exact absurd h (by simp)
          | some (buf, rest2) =>
            rw [hv] at h
            dsimp only at h
            match hf : fieldValue BaseType.tfloat buf with
            | none => rw [hf] at h; exact absurd h (by simp)
            | some v0 =>
              rw [hf] at h
              dsimp only at h
              injection h with h1 h2 h3
              rw [← h1]
              exact Nat.lt_trans (readUntilSep_consumed hv) hrest
        | some BaseType.tchar =>
          rw [hl] at h
          dsimp only at h
          match hv : readUntilSep sep rest with
          | none => rw [hv] at h; exact absurd h (by simp)
          | some (buf, rest2) =>
            rw [hv] at h
            dsimp only at h
            match hf : fieldValue BaseType.tchar buf with
            | none => rw [hf] at h; exact absurd h (by simp)
            | some v0 =>
              rw [hf] at h
              dsimp only at h
              injection h with h1 h2 h3
              rw [← h1]
              exact Nat.lt_trans (readUntilSep_consumed hv) hrest
        | some BaseType.tstring =>
          rw [hl] at h
          dsimp only at h
          match hv : readUntilSep sep rest with
          | none => rw [hv] at h; exact absurd h (by simp)
          | some (buf, rest2) =>
            rw [hv] at h
            dsimp only at h
            match hf : fieldValue BaseType.tstring buf with
            | none => rw [hf] at h; exact absurd h (by simp)
            | some v0 =>
              rw [hf] at h
              dsimp only at h
              injection h with h1 h2 h3
              rw [← h1]
              exact Nat.lt_trans (readUntilSep_consumed hv) hrest

/-- The field loop of `Decoder::decode` after the standard header: every
yielded field is stored with `set_field` and `last_tag` tracks the most
recent tag; the loop ends when the iterator is exhausted.  The outer
`Option` is `none` on a source panic.  The structural `fuel` argument only
makes the recursion kernel-evaluable: every yield strictly consumes bytes
(`fieldIterNext_consumed`), so the `bytes + 1` fuel the caller supplies is
never exhausted. -/
def decodeLoop (dict : Nat → Option BaseType) (sep : Nat) :
    Nat → IterSt → Nat → List (Nat × FixVal) →
    Option (Except DecErr (List (Nat × FixVal) × Nat))
  | 0, _, _, _ => none
  | fuel + 1, st, lastTag, acc =>
    match fieldIterNext dict sep st with
    | NextRes.stop => some (Except.ok (acc, lastTag))
    | NextRes.fail e => some (Except.error e)
    | NextRes.panicked => none
    | NextRes.yielded st2 tag v => decodeLoop dict sep fuel st2 tag (acc ++ [(tag, v)])

/-- `Decoder::decode` for `(Codec<T>, Z)`: three header fields checked to be
tags 8, 9, 35 in order, then all remaining fields, then the `last_tag == 10`
trailer check.  `dict` is the XML dictionary interface, `sep` the
transmuter's separator byte.  The outer `Option` is `none` on a source
panic; the decoded message is the field list in insertion order. -/
def decode (dict : Nat → Option BaseType) (sep : Nat) (data : List Nat) :
    Option (Except DecErr (List (Nat × FixVal))) :=
  let st0 : IterSt := ⟨data, false, 0, 0, 0⟩
  match fieldIterNext dict sep st0 with
  | NextRes.stop => some (Except.error DecErr.eof)
  | NextRes.fail e => some (Except.error e)
  | NextRes.panicked => none
  | NextRes.yielded st1 t1 v1 =>
    if t1 ≠ 8 then some (Except.error DecErr.invalidStandardHeader)
    else
      match fieldIterNext dict sep st1 with
      | NextRes.stop => some (Except.error DecErr.invalidStandardHeader)
      | NextRes.fail e => some (Except.error e)
      | NextRes.panicked => none
      | NextRes.yielded st2 t2 v2 =>
        if t2 ≠ 9 then some (Except.error DecErr.invalidStandardHeader)
        else
          match fieldIterNext dict sep st2 with
          | NextRes.stop => some (Except.error DecErr.invalidStandardHeader)
          | NextRes.fail e => some (Except.error e)
          | NextRes.panicked => none
          | NextRes.yielded st3 t3 v3 =>
            if t3 ≠ 35 then some (Except.error DecErr.invalidStandardHeader)
            else
              (decodeLoop dict sep (st3.bytes.length + 1) st3 35
                  [(8, v1), (9, v2), (35, v3)]).map
                (fun r =>
                  r.bind (fun p =>
                    if p.2 = 10 then Except.ok p.1
                    else Except.error DecErr.invalidStandardTrailer))

/-- `encode_field`: writes `tag=value|` (the separator is the hardcoded byte
`0x7C` in the source) and returns the byte count it reports, which is
digits-of-tag + 2 + value bytes.  Encoding a repeating group panics
(`none`). -/
def encodeField (tag : Nat) (v : FixVal) : Option (List Nat × Nat) :=
  (match v with
    | FixVal.vchar c => some [c]
    | FixVal.vstr s => some s
    | FixVal.vint i => some (Bytes.intBytes i)
    | FixVal.vfloat r => some r
    | FixVal.vdata d => some d
    | FixVal.vgroup => none).map
    (fun vb =>
      (Bytes.natBytes tag ++ [61] ++ vb ++ [124],
       (Bytes.natBytes tag).length + 2 + vb.length))

/-- `Codec::encode` (`impl Encoder<slr::Message> for Codec`): writes
`BeginString(8)`, the placeholder `9=000000|`, `MsgType(35)`, then every
stored field except tag 35 while summing their reported lengths, then
back-patches index 3 of the placeholder value with the single raw byte
`len as u8`, and finally writes `10=42|` (the checksum is the hardcoded
`42`, marked FIXME in the source). -/
def encode (m : SlrMessage) : Option (List Nat) :=
  (getField m 8).bind (fun f8 =>
    (encodeField 8 f8).bind (fun w8 =>
      let w := w8.1 ++ [57, 61, 48, 48, 48, 48, 48, 48, 124]
      let blPos := w.length - 7
      (getField m 35).bind (fun f35 =>
        (encodeField 35 f35).bind (fun w35 =>
          (m.foldlM
              (fun (acc : List Nat × Nat) (f : Nat × FixVal) =>
                if f.1 = 35 then some acc
                else (encodeField f.1 f.2).map (fun b => (acc.1 ++ b.1, acc.2 + b.2)))
              (w ++ w35.1, 0)).bind
            (fun br =>
              (encodeField 10 (FixVal.vint 42)).map
                (fun ck => br.1.set (blPos + 3) (br.2 % 256) ++ ck.1))))))

/-- The FIX-specification checksum: the sum modulo 256 of every byte of the
frame up to and including the separator preceding the `10=` field (spec
§4.1). -/
def specChecksum (prefixBytes : List Nat) : Nat :=
  prefixBytes.sum % 256

/-- Claim-side reading of a reserved six-character `BodyLength` value: six
ASCII digits whose decimal value is `n` (spec §4.1 / §3). -/
def sixZeroPaddedDigits (v : List Nat) (n : Nat) : Bool :=
  v.length = 6 && v.all Bytes.isDigit && Bytes.foldDigits 0 v = n

/-- A sample message for exercising the encoder: `8=FIX.4.4`, `35=D`,
`49=A`, stored in insertion order. -/
def c2msg : SlrMessage :=
  [(8, FixVal.vstr [70, 73, 88, 46, 52, 46, 52]),
   (35, FixVal.vstr [68]),
   (49, FixVal.vstr [65])]

/-- The encoder frame for `c2msg`:
`8=FIX.4.4|9=000<0x0F>00|35=D|8=FIX.4.4|49=A|10=42|`. -/
def c2out : List Nat :=
  [56, 61, 70, 73, 88, 46, 52, 46, 52, 124, 57, 61, 48, 48, 48, 15, 48, 48,
   124, 51, 53, 61, 68, 124, 56, 61, 70, 73, 88, 46, 52, 46, 52, 124, 52, 57,
   61, 65, 124, 49, 48, 61, 52, 50, 124]

/-- C2: the claim states that in every finalized frame the `BodyLength(9)`
value consists of six zero-padded ASCII digits whose decimal value is the
byte count from after the field's own terminator up to and including the
separator before `10=`.  The code instead back-patches a single raw byte
(`body_length_slice[3] = len as u8`): on `c2msg` the six reserved value
bytes are `[48, 48, 48, 15, 48, 48]` — byte `0x0F` is not an ASCII digit —
while the actual body span holds 20 bytes. -/
theorem c2_body_length_eval :
    encode c2msg = some c2out ∧
    (c2out.drop 12).take 6 = [48, 48, 48, 15, 48, 48] ∧
    ((c2out.take (c2out.length - 6)).drop 19).length = 20 ∧
    sixZeroPaddedDigits ((c2out.drop 12).take 6) 20 = false := by
  refine ⟨?_, ?_, ?_, ?_⟩ <;> decide

/-- A sample message for exercising the encoder's trailer: `8=FIX.4.4`,
`35=0`, `56=AB`. -/
def c3msg : SlrMessage :=
  [(8, FixVal.vstr [70, 73, 88, 46, 52, 46, 52]),
   (35, FixVal.vstr [48]),
   (56, FixVal.vstr [65, 66])]

/-- The encoder frame for `c3msg`:
`8=FIX.4.4|9=000<0x10>00|35=0|8=FIX.4.4|56=AB|10=42|`. -/
def c3out : List Nat :=
  [56, 61, 70, 73, 88, 46, 52, 46, 52, 124, 57, 61, 48, 48, 48, 16, 48, 48,
   124, 51, 53, 61, 48, 124, 56, 61, 70, 73, 88, 46, 52, 46, 52, 124, 53, 54,
   61, 65, 66, 124, 49, 48, 61, 52, 50, 124]

/-- C3: the claim states that every finalized frame ends in
`10=<CheckSum><SEP>` with `CheckSum` exactly three ASCII digits whose value
is the modulo-256 sum of all preceding bytes.  The code writes the constant
`42` (`let checksum = 42; // FIXME`): on `c3msg` the trailer is `10=42|`,
whose value text has two digits, while the modulo-256 sum of the preceding
bytes is 34 ≠ 42. -/
theorem c3_checksum_eval :
    encode c3msg = some c3out ∧
    c3out.drop (c3out.length - 6) = [49, 48, 61, 52, 50, 124] ∧
    specChecksum (c3out.take (c3out.length - 6)) = 34 ∧
    ([52, 50].length = 3) = False := by
  refine ⟨?_, ?_, ?_, ?_⟩
  · decide
  · decide
  · decide
  · simp

/-- A dictionary with no known fields: `TagLookupPredetermined` then resolves
every ordinary tag to the `String` base type. -/
def dictAllStr : Nat → Option BaseType := fun _ => none

/-- The frame `8=FIX.4.2|9=42|35=0|49=A|56=B|10=000|`: well-formed header
and trailer, but the declared `CheckSum` value `000` does not match the
modulo-256 sum (16) of the preceding bytes. -/
def c7bad : List Nat :=
  [56, 61, 70, 73, 88, 46, 52, 46, 50, 124, 57, 61, 52, 50, 124, 51, 53, 61,
   48, 124, 52, 57, 61, 65, 124, 53, 54, 61, 66, 124, 49, 48, 61, 48, 48, 48,
   124]

/-- C7 counterexample: the claim states that when checksum verification is
enabled (the standard `ChecksumAlgoStd` transmuters) a declared `CheckSum`
that differs from the computed modulo-256 sum makes `decode` return
`InvalidStandardTrailer`.  On `c7bad` the declared value is `000` while the
computed sum is 16, yet `decode` succeeds: the decoding path never consults
the checksum. -/
theorem c7_checksum_not_verified :
    decode dictAllStr 124 c7bad = some (Except.ok
      [(8, FixVal.vstr [70, 73, 88, 46, 52, 46, 50]), (9, FixVal.vstr [52, 50]),
       (35, FixVal.vstr [48]), (49, FixVal.vstr [65]), (56, FixVal.vstr [66]),
       (10, FixVal.vstr [48, 48, 48])]) ∧
    Bytes.foldDigits 0 [48, 48, 48] = 0 ∧
    specChecksum (c7bad.take (c7bad.length - 7)) = 16 := ⟨rfl, rfl, rfl⟩

theorem natBytes_all_digits (n : Nat) : ∀ b ∈ Bytes.natBytes n, Bytes.isDigit b = true := by
  intro b hb
  rw [Bytes.natBytes_eq_digits] at hb
  by_cases h0 : n = 0
  · rw [if_pos h0] at hb
    simp at hb
    subst hb
    rfl
  · rw [if_neg h0] at hb
    simp only [List.mem_map, List.mem_reverse] at hb
    obtain ⟨d, hd, hdb⟩ := hb
    have hlt : d < 10 := Nat.digits_lt_base (by norm_num) hd
    subst hdb
    simp only [Bytes.isDigit]
    simp
    omega

theorem foldDigits_map_add48 (ds : List Nat) :
    ∀ acc : Nat, Bytes.foldDigits acc (ds.map (fun d => d + 48))
      = ds.foldl (fun a d => a * 10 + d) acc := by
  induction ds with
  | nil => intro acc; rfl
  | cons d ds ih =>
    intro acc
    have h1 : Bytes.foldDigits acc ((d :: ds).map (fun d => d + 48))
        = Bytes.foldDigits (acc * 10 + (d + 48 - 48)) (ds.map (fun d => d + 48)) := rfl
    rw [h1, Nat.add_sub_cancel, List.foldl_cons]
    exact ih (acc * 10 + d)

theorem foldr_eq_ofDigits (ds : List Nat) :
    ds.foldr (fun d a => a * 10 + d) 0 = Nat.ofDigits 10 ds := by
  induction ds with
  | nil => simp [Nat.ofDigits]
  | cons d ds ih =>
    simp only [List.foldr_cons, Nat.ofDigits_cons, ih]
    ring

/-- Reading back the decimal byte string of `n` returns `n`. -/
theorem foldDigits_natBytes (n : Nat) : Bytes.foldDigits 0 (Bytes.natBytes n) = n := by
  rw [Bytes.natBytes_eq_digits]
  by_cases h0 : n = 0
  · rw [if_pos h0, h0]; rfl
  · rw [if_neg h0]
    rw [foldDigits_map_add48]
    rw [List.foldl_reverse]
    have : (fun (a d : Nat) => a * 10 + d) = fun a d => (fun d a => a * 10 + d) d a := rfl
    rw [foldr_eq_ofDigits]
    exact Nat.ofDigits_digits 10 n

/-- The tag loop of the decoder inverts decimal tag serialization. -/
theorem readTag_digits (ds : List Nat) :
    ∀ (acc : Nat) (rest : List Nat), (∀ d ∈ ds, Bytes.isDigit d = true) →
      readTag acc (ds ++ 61 :: rest) = some (Bytes.foldDigits acc ds, rest) := by
  induction ds with
  | nil =>
    intro acc rest _
    rfl
  | cons d ds ih =>
    intro acc rest hall
    have hd : Bytes.isDigit d = true := hall d (List.mem_cons_self d ds)
    have hd61 : d ≠ 61 := by
      simp only [Bytes.isDigit] at hd
      simp at hd
      omega
    simp only [List.cons_append, readTag]
    rw [if_neg hd61, if_pos hd]
    exact ih (acc * 10 + (d - 48)) rest (fun x hx => hall x (List.mem_cons_of_mem d hx))

theorem readTag_natBytes (t : Nat) (rest : List Nat) :
    readTag 0 (Bytes.natBytes t ++ 61 :: rest) = some (t, rest) := by
  rw [readTag_digits (Bytes.natBytes t) 0 rest (natBytes_all_digits t)]
  rw [foldDigits_natBytes]

/-- The value loop of the decoder inverts value serialization when the value
contains no separator byte. -/
theorem readUntilSep_ser (sep : Nat) (v : List Nat) :
    ∀ rest : List Nat, sep ∉ v → readUntilSep sep (v ++ sep :: rest) = some (v, rest) := by
  induction v with
  | nil =>
    intro rest _
    simp only [List.nil_append, readUntilSep]
    simp
  | cons b v ih =>
    intro rest hs
    have hb : b ≠ sep := fun hh => hs (hh ▸ List.mem_cons_self b v)
    simp only [List.cons_append, readUntilSep]
    rw [if_neg hb]
    simp only [List.append_eq]
    rw [ih rest (fun hh => hs (List.mem_cons_of_mem b hh))]
    rfl

/-- Serialization of one `tag=value<SEP>` field (spec §4.1 wire format). -/
def serField (sep : Nat) (f : Nat × List Nat) : List Nat :=
  Bytes.natBytes f.1 ++ [61] ++ f.2 ++ [sep]

/-- Serialization of a field sequence. -/
def serFields (sep : Nat) : List (Nat × List Nat) → List Nat
  | [] => []
  | f :: fs => serField sep f ++ serFields sep fs

theorem bool_and_split {a b : Bool} (h : (a && b) = true) : a = true ∧ b = true := by
  simp only [Bool.and_eq_true] at h
  exact h

/-- A field the decoder consumes without error or panic, given the current
value `dl` of the `data_length` register: a nonzero tag the lookup accepts,
and a value parseable at the dictionary type.  A `Data` value may contain
separator bytes but must be nonempty and exactly `dl` bytes long (the
length-prefix coupling of spec §4.1); every other value must be free of the
separator byte and parse at its type. -/
def wfFieldAt (dict : Nat → Option BaseType) (sep dl : Nat) (f : Nat × List Nat) : Bool :=
  decide (f.1 ≠ 0) &&
    (match tagLookup dict f.1 with
     | some BaseType.tstring => decide (sep ∉ f.2) && Bytes.validUtf8 f.2
     | some BaseType.tint => decide (sep ∉ f.2) && (Bytes.parseI64 f.2).isSome
     | some BaseType.tchar => decide (sep ∉ f.2) && decide (f.2 ≠ [])
     | some BaseType.tfloat =>
       decide (sep ∉ f.2) && (Bytes.validUtf8 f.2 && Bytes.isFloatLit f.2)
     | some BaseType.tdata => decide (f.2 ≠ []) && decide (f.2.length = dl)
     | none => false)

/-- The field value the decoder stores for a serialized field.  For a
`Data` field the stored bytes are corrupted: the source reads the
terminating byte into `buffer[0]`, so the first data byte is replaced by
the separator.  Every other type parses the value bytes as they are. -/
def parsedField (dict : Nat → Option BaseType) (sep : Nat) (f : Nat × List Nat) :
    Nat × FixVal :=
  (f.1,
   match tagLookup dict f.1 with
   | some BaseType.tdata => FixVal.vdata (sep :: f.2.tail)
   | bt => (fieldValue (bt.getD BaseType.tstring) f.2).getD (FixVal.vstr []))

/-- The `data_length` register after the decoder consumes `f`. -/
def dlAfter (dict : Nat → Option BaseType) (sep : Nat) (f : Nat × List Nat) (dl : Nat) :
    Nat :=
  match (parsedField dict sep f).2 with
  | FixVal.vint i => (i % (2 ^ 32 : Int)).toNat
  | _ => dl

/-- Well-formedness of a field sequence, threading the data-length
register. -/
def wfFields (dict : Nat → Option BaseType) (sep : Nat) :
    Nat → List (Nat × List Nat) → Bool
  | _, [] => true
  | dl, f :: fs => wfFieldAt dict sep dl f && wfFields dict sep (dlAfter dict sep f dl) fs

/-- One `FieldIter::next` call on a serialized well-formed field yields its
tag and parsed value, consumes exactly the field's bytes, and updates the
data-length register to `dlAfter`. -/
theorem fieldIterNext_ser (dict : Nat → Option BaseType) (sep : Nat)
    (f : Nat × List Nat) (rest : List Nat) (dl ck wl : Nat)
    (hwf : wfFieldAt dict sep dl f = true) :
    ∃ ck2 wl2,
      fieldIterNext dict sep ⟨serField sep f ++ rest, false, dl, ck, wl⟩
        = NextRes.yielded
            ⟨rest, decide (f.1 = 10), dlAfter dict sep f dl, ck2, wl2⟩
            f.1 (parsedField dict sep f).2 := by
  obtain ⟨t, v⟩ := f
  simp only [wfFieldAt, Bool.and_eq_true, decide_eq_true_eq] at hwf
  obtain ⟨h0, hty⟩ := hwf
  have hser : serField sep (t, v) ++ rest = Bytes.natBytes t ++ 61 :: (v ++ sep :: rest) := by
    simp [serField]
  rw [fieldIterNext]
  dsimp only
  simp only [Bool.false_eq_true, if_false]
  rw [hser]
  rw [readTag_natBytes t (v ++ sep :: rest)]
  dsimp only
  rw [if_neg h0]
  match hl : tagLookup dict t with
  | none => rw [hl] at hty; dsimp only at hty; exact absurd hty (by simp)
  | some BaseType.tdata =>
    rw [hl] at hty
    dsimp only at hty
    simp only [Bool.and_eq_true, decide_eq_true_eq] at hty
    obtain ⟨hne, hlen⟩ := hty
    subst hlen
    dsimp only
    refine ⟨(ck + v.sum + sep) % 256, wl + v.length + 1, ?_⟩
    rw [if_neg (by simp [hne])]
    rw [if_neg (by simp [List.length_append])]
    rw [List.take_left, List.drop_left]
    dsimp only
    simp only [parsedField, dlAfter, hl]
  | some BaseType.tstring =>
    rw [hl] at hty
    dsimp only at hty
    simp only [Bool.and_eq_true, decide_eq_true_eq] at hty
    obtain ⟨hsep, hty⟩ := hty
    dsimp only
    refine ⟨(ck + v.sum) % 256, wl + v.length, ?_⟩
    rw [readUntilSep_ser sep v rest hsep]
    dsimp only
    have hfv : fieldValue BaseType.tstring v = some (FixVal.vstr v) := by
      rw [fieldValue]
      rw [if_pos hty]
    rw [hfv]
    dsimp only
    simp only [parsedField, dlAfter, hl]
    simp only [Option.getD_some, hfv]
  | some BaseType.tfloat =>
    rw [hl] at hty
    dsimp only at hty
    simp only [Bool.and_eq_true, decide_eq_true_eq] at hty
    obtain ⟨hsep, hty⟩ := hty
    dsimp only
    refine ⟨(ck + v.sum) % 256, wl + v.length, ?_⟩
    rw [readUntilSep_ser sep v rest hsep]
    dsimp only
    have hfv : fieldValue BaseType.tfloat v = some (FixVal.vfloat v) := by
      rw [fieldValue]
      rw [if_pos (by simp [hty.1, hty.2])]
    rw [hfv]
    dsimp only
    simp only [parsedField, dlAfter, hl]
    simp only [Option.getD_some, hfv]
  | some BaseType.tint =>
    rw [hl] at hty
    dsimp only at hty
    simp only [Bool.and_eq_true, decide_eq_true_eq] at hty
    obtain ⟨hsep, hty⟩ := hty
    dsimp only
    refine ⟨(ck + v.sum) % 256, wl + v.length, ?_⟩
    rw [readUntilSep_ser sep v rest hsep]
    dsimp only
    obtain ⟨i, hi⟩ := Option.isSome_iff_exists.mp hty
    have hfv : fieldValue BaseType.tint v = some (FixVal.vint i) := by
      rw [fieldValue]
      rw [hi]
      rfl
    rw [hfv]
    dsimp only
    simp only [parsedField, dlAfter, hl]
    simp only [Option.getD_some, hfv]
  | some BaseType.tchar =>
    rw [hl] at hty
    dsimp only at hty
    simp only [Bool.and_eq_true, decide_eq_true_eq] at hty
    obtain ⟨hsep, hty⟩ := hty
    dsimp only
    refine ⟨(ck + v.sum) % 256, wl + v.length, ?_⟩
    rw [readUntilSep_ser sep v rest hsep]
    dsimp only
    match v, hty with
    | b :: v2, _ =>
      have hfv : fieldValue BaseType.tchar (b :: v2) = some (FixVal.vchar b) := rfl
      rw [hfv]
      dsimp only
      simp only [parsedField, dlAfter, hl]
      simp only [Option.getD_some, hfv]

theorem fieldIterNext_stop (dict : Nat → Option BaseType) (sep : Nat)
    (bytes : List Nat) (dl ck wl : Nat) :
    fieldIterNext dict sep ⟨bytes, true, dl, ck, wl⟩ = NextRes.stop := rfl

theorem serField_length_ge (sep : Nat) (f : Nat × List Nat) :
    2 ≤ (serField sep f).length := by
  simp [serField]
  omega

/-- The decode loop consumes a serialized sequence of well-formed fields
ending in a tag-10 field and returns all their parsed values with
`last_tag = 10`. -/
theorem decodeLoop_ser (dict : Nat → Option BaseType) (sep : Nat) :
    ∀ (mids : List (Nat × List Nat)) (ckv : List Nat)
      (fuel dl c w lastTag : Nat) (acc : List (Nat × FixVal)),
      wfFields dict sep dl (mids ++ [(10, ckv)]) = true →
      (∀ f ∈ mids, f.1 ≠ 10) →
      (serFields sep (mids ++ [(10, ckv)])).length < fuel →
      decodeLoop dict sep fuel ⟨serFields sep (mids ++ [(10, ckv)]), false, dl, c, w⟩ lastTag acc
        = some (Except.ok (acc ++ (mids ++ [(10, ckv)]).map (parsedField dict sep), 10)) := by
  intro mids
  induction mids with
  | nil =>
    intro ckv fuel dl c w lastTag acc hwf _ hfuel
    simp only [List.nil_append] at hwf hfuel ⊢
    rw [wfFields] at hwf
    have hck : wfFieldAt dict sep dl (10, ckv) = true := (bool_and_split hwf).1
    have hlen := serField_length_ge sep (10, ckv)
    have hlen2 : (serFields sep [(10, ckv)]).length = (serField sep (10, ckv)).length := by
      simp [serFields]
    match fuel, hfuel with
    | fuel + 1, hfuel =>
      rw [decodeLoop]
      rw [serFields]
      obtain ⟨ck2, wl2, hnext⟩ := fieldIterNext_ser dict sep (10, ckv)
        (serFields sep ([] : List (Nat × List Nat))) dl c w hck
      rw [hnext]
      dsimp only
      rw [show (decide ((10 : Nat) = 10)) = true from rfl]
      match fuel, (by omega : 1 ≤ fuel) with
      | fuel + 1, _ =>
        rw [decodeLoop]
        rw [fieldIterNext_stop]
        dsimp only
        simp [parsedField]
  | cons f mids ih =>
    intro ckv fuel dl c w lastTag acc hwf h10 hfuel
    rw [List.cons_append] at hwf hfuel ⊢
    rw [wfFields] at hwf
    have hf1 : wfFieldAt dict sep dl f = true := (bool_and_split hwf).1
    have hf2 : wfFields dict sep (dlAfter dict sep f dl) (mids ++ [(10, ckv)]) = true :=
      (bool_and_split hwf).2
    have hf10 := h10 f (List.mem_cons_self f mids)
    have hlen := serField_length_ge sep f
    have hser : serFields sep (f :: (mids ++ [(10, ckv)]))
        = serField sep f ++ serFields sep (mids ++ [(10, ckv)]) := rfl
    rw [hser] at hfuel ⊢
    match fuel, hfuel with
    | fuel + 1, hfuel =>
      rw [decodeLoop]
      obtain ⟨ck2, wl2, hnext⟩ := fieldIterNext_ser dict sep f
        (serFields sep (mids ++ [(10, ckv)])) dl c w hf1
      rw [hnext]
      dsimp only
      rw [decide_eq_false hf10]
      rw [ih ckv fuel (dlAfter dict sep f dl) ck2 wl2 f.1
        (acc ++ [(f.1, (parsedField dict sep f).2)])
        hf2 (fun x hx => h10 x (List.mem_cons_of_mem f hx))
        (by
          rw [List.length_append] at hfuel
          omega)]
      have hpf : (f.1, (parsedField dict sep f).2) = parsedField dict sep f := rfl
      rw [hpf]
      simp [List.append_assoc]

/-- C7 (amended): over inputs whose fields lex successfully, `decode`
returns `InvalidStandardHeader` when the first three fields are not tags
8, 9, 35 in that order; it returns `InvalidStandardTrailer` exactly when
the last field's tag is not 10 (the declared `CheckSum` value is never
verified); and the serialization of any well-formed field sequence with
header tags 8, 9, 35 and final tag 10 — string-, int-, char-, float- and
length-coupled data-typed values alike — decodes successfully to its
parsed field map. -/
theorem c7_decode_behavior :
    (∀ (dict : Nat → Option BaseType) (sep : Nat) (data : List Nat)
        (st1 st2 st3 : IterSt) (t1 t2 t3 : Nat) (v1 v2 v3 : FixVal),
        fieldIterNext dict sep ⟨data, false, 0, 0, 0⟩ = NextRes.yielded st1 t1 v1 →
        fieldIterNext dict sep st1 = NextRes.yielded st2 t2 v2 →
        fieldIterNext dict sep st2 = NextRes.yielded st3 t3 v3 →
        ¬(t1 = 8 ∧ t2 = 9 ∧ t3 = 35) →
        decode dict sep data = some (Except.error DecErr.invalidStandardHeader)) ∧
    (∀ (dict : Nat → Option BaseType) (sep : Nat) (data : List Nat)
        (st1 st2 st3 : IterSt) (v1 v2 v3 : FixVal) (fs : List (Nat × FixVal)) (lt : Nat),
        fieldIterNext dict sep ⟨data, false, 0, 0, 0⟩ = NextRes.yielded st1 8 v1 →
        fieldIterNext dict sep st1 = NextRes.yielded st2 9 v2 →
        fieldIterNext dict sep st2 = NextRes.yielded st3 35 v3 →
        decodeLoop dict sep (st3.bytes.length + 1) st3 35 [(8, v1), (9, v2), (35, v3)]
          = some (Except.ok (fs, lt)) →
        lt ≠ 10 →
        decode dict sep data = some (Except.error DecErr.invalidStandardTrailer)) ∧
    (∀ (dict : Nat → Option BaseType) (sep : Nat) (bs bl mt ckv : List Nat)
        (mids : List (Nat × List Nat)),
        wfFields dict sep 0 ((8, bs) :: (9, bl) :: (35, mt) :: (mids ++ [(10, ckv)])) = true →
        (∀ f ∈ mids, f.1 ≠ 10) →
        decode dict sep (serFields sep ((8, bs) :: (9, bl) :: (35, mt) :: (mids ++ [(10, ckv)])))
          = some (Except.ok
              (((8, bs) :: (9, bl) :: (35, mt) :: (mids ++ [(10, ckv)])).map
                (parsedField dict sep)))) := by
  refine ⟨?_, ?_, ?_⟩
  · intro dict sep data st1 st2 st3 t1 t2 t3 v1 v2 v3 h1 h2 h3 hbad
    rw [decode]
    rw [h1]
    dsimp only
    by_cases e1 : t1 = 8
    · rw [if_neg (by simp [e1])]
      rw [h2]
      dsimp only
      by_cases e2 : t2 = 9
      · rw [if_neg (by simp [e2])]
        rw [h3]
        dsimp only
        have e3 : t3 ≠ 35 := by
          intro hc
          exact hbad ⟨e1, e2, hc⟩
        rw [if_pos e3]
      · rw [if_pos e2]
    · rw [if_pos e1]
  · intro dict sep data st1 st2 st3 v1 v2 v3 fs lt h1 h2 h3 hloop hlt
    rw [decode]
    rw [h1]
    dsimp only
    rw [if_neg (by simp)]
    rw [h2]
    dsimp only
    rw [if_neg (by simp)]
    rw [h3]
    dsimp only
    rw [if_neg (by simp)]
    rw [hloop]
    dsimp only [Option.map, Except.bind]
    rw [if_neg hlt]
  · intro dict sep bs bl mt ckv mids hwf h10
    rw [wfFields] at hwf
    have h8 : wfFieldAt dict sep 0 (8, bs) = true := (bool_and_split hwf).1
    have hwf2 := (bool_and_split hwf).2
    rw [wfFields] at hwf2
    have h9 : wfFieldAt dict sep (dlAfter dict sep (8, bs) 0) (9, bl) = true :=
      (bool_and_split hwf2).1
    have hwf3 := (bool_and_split hwf2).2
    rw [wfFields] at hwf3
    have h35 : wfFieldAt dict sep (dlAfter dict sep (9, bl) (dlAfter dict sep (8, bs) 0))
        (35, mt) = true := (bool_and_split hwf3).1
    have hwf4 := (bool_and_split hwf3).2
    have hser1 : serFields sep ((8, bs) :: (9, bl) :: (35, mt) :: (mids ++ [(10, ckv)]))
        = serField sep (8, bs)
          ++ serFields sep ((9, bl) :: (35, mt) :: (mids ++ [(10, ckv)])) := rfl
    rw [decode]
    rw [hser1]
    obtain ⟨ck2, wl2, hnext1⟩ := fieldIterNext_ser dict sep (8, bs)
      (serFields sep ((9, bl) :: (35, mt) :: (mids ++ [(10, ckv)]))) 0 0 0 h8
    rw [hnext1]
    dsimp only
    rw [if_neg (by simp)]
    rw [show (decide ((8 : Nat) = 10)) = false from rfl]
    have hser2 : serFields sep ((9, bl) :: (35, mt) :: (mids ++ [(10, ckv)]))
        = serField sep (9, bl) ++ serFields sep ((35, mt) :: (mids ++ [(10, ckv)])) := rfl
    rw [hser2]
    obtain ⟨ck3, wl3, hnext2⟩ := fieldIterNext_ser dict sep (9, bl)
      (serFields sep ((35, mt) :: (mids ++ [(10, ckv)])))
      (dlAfter dict sep (8, bs) 0) ck2 wl2 h9
    rw [hnext2]
    dsimp only
    rw [if_neg (by simp)]
    rw [show (decide ((9 : Nat) = 10)) = false from rfl]
    have hser3 : serFields sep ((35, mt) :: (mids ++ [(10, ckv)]))
        = serField sep (35, mt) ++ serFields sep (mids ++ [(10, ckv)]) := rfl
    rw [hser3]
    obtain ⟨ck4, wl4, hnext3⟩ := fieldIterNext_ser dict sep (35, mt)
      (serFields sep (mids ++ [(10, ckv)]))
      (dlAfter dict sep (9, bl) (dlAfter dict sep (8, bs) 0)) ck3 wl3 h35
    rw [hnext3]
    dsimp only
    rw [if_neg (by simp)]
    rw [show (decide ((35 : Nat) = 10)) = false from rfl]
    rw [decodeLoop_ser dict sep mids ckv _ _ _ _ 35 _ hwf4 h10 (by omega)]
    dsimp only [Option.map, Except.bind]
    rw [if_pos rfl]
    simp [parsedField]

/-- A dictionary typing Price(44) as float and the RawDataLength(95) /
RawData(96) pair as int and data, every other tag defaulting to string. -/
def dictFD : Nat → Option BaseType := fun t =>
  if t = 44 then some BaseType.tfloat
  else if t = 95 then some BaseType.tint
  else if t = 96 then some BaseType.tdata
  else none

/-- C7 witness: the conjuncts of `c7_decode_behavior` applied at concrete
inputs — a frame starting `9=1|8=X|...` is rejected with
`InvalidStandardHeader`, and the well-formed frame
`8=X|9=1|35=D|44=2200.75|95=3|96=a|b|10=000|` — with a float field and a
length-coupled data field whose value contains the separator — decodes to
its parsed field map. -/
theorem c7_decode_behavior_witness :
    decode dictFD 124 (serFields 124 [(9, [49]), (8, [88]), (35, [68]), (10, [48])])
      = some (Except.error DecErr.invalidStandardHeader) ∧
    decode dictFD 124
        (serFields 124
          ((8, [88]) :: (9, [49]) :: (35, [68])
            :: ([(44, [50, 50, 48, 48, 46, 55, 53]), (95, [51]), (96, [97, 124, 98])]
                ++ [(10, [48, 48, 48])])))
      = some (Except.ok
          (((8, [88]) :: (9, [49]) :: (35, [68])
            :: ([(44, [50, 50, 48, 48, 46, 55, 53]), (95, [51]), (96, [97, 124, 98])]
                ++ [(10, [48, 48, 48])])).map
            (parsedField dictFD 124))) := by
  constructor
  · exact c7_decode_behavior.1 dictFD 124 _ _ _ _ 9 8 35 _ _ _ rfl rfl rfl (by decide)
  · exact c7_decode_behavior.2.2 dictFD 124 [88] [49] [68] [48, 48, 48]
      [(44, [50, 50, 48, 48, 46, 55, 53]), (95, [51]), (96, [97, 124, 98])]
      (by decide) (by decide)

end Fasters

namespace Fefix

/-- `session::Environment` (not under `src/`).  Modelled from the spec:
`Testing` or `Production{allow_test: bool}`; `connection.rs` matches on
exactly these two constructors. -/
inductive Environment
  | testing
  | production (allowTest : Bool)
deriving DecidableEq, Repr

/-- `matches!(env, Environment::Production { .. })` from
`verify_test_message_indicator`. -/
def Environment.isProduction : Environment → Bool
  | Environment.production _ => true
  | Environment.testing => false

/-- Session configuration (`session::Config`, not under `src/`).  Modelled
from the spec (§3, §6): the fields behind the `Configure` accessors that
`connection.rs` calls. -/
structure Config where
  beginString : List Nat
  senderCompId : List Nat
  targetCompId : List Nat
  environment : Environment
  heartbeat : Nat
  verifyTestIndicator : Bool
deriving DecidableEq, Repr

/-- A decoded message view (`tagvalue::Message`, not under `src/`).
Modelled from the spec (§3): a mapping from tag number to value bytes.
`fvRaw` is `Message::fv_raw`. -/
structure FixMessage where
  fields : List (Nat × List Nat)
deriving DecidableEq, Repr

def FixMessage.fvRaw (m : FixMessage) (tag : Nat) : Option (List Nat) :=
  (m.fields.find? (fun f => f.1 = tag)).map (fun f => f.2)

/-- `msg.fv::<u64>(tag)`: the raw bytes parsed as a decimal `u64`. -/
def FixMessage.fvU64 (m : FixMessage) (tag : Nat) : Option Nat :=
  (m.fvRaw tag).bind Bytes.parseU64

/-- `session::SeqNumbers` (not under `src/`).  Modelled from the spec
(§3, §4.2): two u64 counters starting at 1. -/
structure SeqNumbers where
  nextInbound : Nat
  nextOutbound : Nat
deriving DecidableEq, Repr

/-- `SeqNumbers::default()`: both counters start at 1 (spec §3). -/
def SeqNumbers.default : SeqNumbers := ⟨1, 1⟩

/-- `session::SeqNumberError` (not under `src/`); modelled from the spec
§4.2 and the match arms in `on_inbound_message`. -/
inductive SeqNumberError
  | recover
  | tooLow
  | noSeqNum
deriving DecidableEq, Repr

/-- Modelled from the spec §4.2: `validate_inbound(n)` is `Ok` iff
`n == next_inbound`, `TooLow` below, `Recover` above (`none` models `Ok`). -/
def SeqNumbers.validate_inbound (s : SeqNumbers) (n : Nat) : Option SeqNumberError :=
  if n = s.nextInbound then none
  else if n < s.nextInbound then some SeqNumberError.tooLow
  else some SeqNumberError.recover

/-- Modelled from the spec §4.2: returns the current outbound value, then
increments. -/
def SeqNumbers.get_incr_outbound (s : SeqNumbers) : Nat × SeqNumbers :=
  (s.nextOutbound, { s with nextOutbound := s.nextOutbound + 1 })

/-- Modelled from the spec §4.2: returns the current inbound value, then
increments. -/
def SeqNumbers.get_incr_inbound (s : SeqNumbers) : Nat × SeqNumbers :=
  (s.nextInbound, { s with nextInbound := s.nextInbound + 1 })

/-- `Verifier::verify_test_message_indicator` (connection.rs 629-649):
passes when the check is disabled or the field is absent; value `Y` needs
`Testing` or `Production{allow_test: true}`; value `N` needs any
`Production`; everything else fails. -/
def verify_test_message_indicator (cfg : Config) (msg : FixMessage) : Bool :=
  if !cfg.verifyTestIndicator then true
  else
    match msg.fvRaw 464 with
    | some v =>
      if v = [89] ∧ (cfg.environment = Environment.testing
          ∨ cfg.environment = Environment.production true) then true
      else if v = [78] ∧ cfg.environment.isProduction = true then true
      else false
    | none => true

/-- One second, with instants modelled as `Int` nanoseconds
(`chrono::Duration::seconds(1)`). -/
def oneSecond : Int := 1000000000

/-- `Verifier::verify_sending_time` (connection.rs 651-661): SendingTime(52)
is parsed (`field_types::Timestamp` plus `to_chrono_utc`, neither under
`src/`, stand behind the `parseTs` parameter) and accepted iff
`utc_now - time < Duration::seconds(1)` — a signed, one-sided comparison. -/
def verify_sending_time (utcNow : Int) (parseTs : List Nat → Option Int)
    (msg : FixMessage) : Bool :=
  match msg.fvRaw 52 with
  | some raw =>
    match parseTs raw with
    | some time => decide (utcNow - time < oneSecond)
    | none => false
  | none => false

/-- An in-flight encoder message (`tagvalue::Encoder`/`EncoderHandle`, not
under `src/`).  Modelled from the spec §4.1/§4.2 encoder contract:
`start_message(begin_string, buffer, msg_type)` begins a frame whose first
three fields are `8=begin_string`, the reserved `9`, and `35=msg_type`;
`set` appends a field; `done()` back-patches `BodyLength` and appends the
checksum.  The session-layer claims concern which fields a reply carries,
so the model keeps the field list of the frame. -/
structure OutMsg where
  beginString : List Nat
  msgType : List Nat
  fields : List (Nat × List Nat)
deriving DecidableEq, Repr

/-- Modelled from the spec §4.1: begin a frame. -/
def start_message (beginString : List Nat) (msgType : List Nat) : OutMsg :=
  ⟨beginString, msgType, []⟩

/-- Modelled from the spec §4.1: append a `tag=value` field. -/
def OutMsg.set (m : OutMsg) (tag : Nat) (v : List Nat) : OutMsg :=
  { m with fields := m.fields ++ [(tag, v)] }

/-- `FixConnection` state relevant to dispatch: configuration and sequence
numbers.  The uuid, backend handle, encoder and scratch buffer are omitted:
backend calls are observability hooks and the encoder output is modelled as
`OutMsg`. -/
structure FixConnection where
  config : Config
  seqNumbers : SeqNumbers
deriving DecidableEq, Repr

/-- `connection::Response`, restricted to the variants `on_inbound_message`
produces: `None`, `ResetHeartbeat`, `OutboundBytes` (carrying the encoder
frame) and `Application`. -/
inductive Response
  | rnone
  | resetHeartbeat
  | outbound (msg : OutMsg)
  | application (msg : FixMessage)
deriving DecidableEq, Repr

def logoutText : List Nat := [76, 111, 103, 111, 117, 116]

def badSendingTimeText : List Nat :=
  [66, 97, 100, 32, 83, 101, 110, 100, 105, 110, 103, 84, 105, 109, 101]

/-- `errs::missing_field("MsgSeqNum", 34)` (errs is not under `src/`; bytes
taken from the test expectation in connection.rs):
`Missing mandatory field MsgSeqNum(34)`. -/
def missingFieldText : List Nat :=
  [77, 105, 115, 115, 105, 110, 103, 32, 109, 97, 110, 100, 97, 116, 111, 114,
   121, 32, 102, 105, 101, 108, 100, 32, 77, 115, 103, 83, 101, 113, 78, 117,
   109, 40, 51, 52, 41]

/-- `errs::msg_seq_num(n)` (bytes from the test expectation):
`Invalid MsgSeqNum <34>, expected value n`. -/
def msgSeqNumText (n : Nat) : List Nat :=
  [73, 110, 118, 97, 108, 105, 100, 32, 77, 115, 103, 83, 101, 113, 78, 117,
   109, 32, 60, 51, 52, 62, 44, 32, 101, 120, 112, 101, 99, 116, 101, 100, 32,
   118, 97, 108, 117, 101, 32] ++ Bytes.natBytes n

/-- `errs::production_env()` (bytes from the test expectation). -/
def productionEnvText : List Nat :=
  [84, 101, 115, 116, 77, 101, 115, 115, 97, 103, 101, 73, 110, 100, 105, 99,
   97, 116, 111, 114, 40, 52, 54, 52, 41, 32, 119, 97, 115, 32, 115, 101, 116,
   32, 116, 111, 32, 39, 89, 39, 32, 98, 117, 116, 32, 116, 104, 101, 32, 101,
   110, 118, 105, 114, 111, 110, 109, 101, 110, 116, 32, 105, 115, 32, 97, 32,
   112, 114, 111, 100, 117, 99, 116, 105, 111, 110, 32, 101, 110, 118, 105,
   114, 111, 110, 109, 101, 110, 116]

/-- `FixConnection::make_logout` (connection.rs 509-523): a `5` frame with
sender, target, a fresh outbound MsgSeqNum, the Text, and SendingTime set
after the Text.  `nowTs` is the encoded `Timestamp::utc_now()`. -/
def make_logout (c : FixConnection) (nowTs : List Nat) (text : List Nat) :
    Response × FixConnection :=
  let p := c.seqNumbers.get_incr_outbound
  let m := start_message c.config.beginString [53]
  let m := m.set 49 c.config.senderCompId
  let m := m.set 56 c.config.targetCompId
  let m := m.set 34 (Bytes.natBytes p.1)
  let m := m.set 58 text
  let m := m.set 52 nowTs
  (Response.outbound m, { c with seqNumbers := p.2 })

/-- `FixConnection::make_resend_request` (connection.rs 525-535): a `2`
frame with sender, target, SendingTime, BeginSeqNo(7) and EndSeqNo(16).
No MsgSeqNum is set and the outbound counter is not touched. -/
def make_resend_request (c : FixConnection) (nowTs : List Nat)
    (start endSeq : Nat) : Response × FixConnection :=
  let m := start_message c.config.beginString [50]
  let m := m.set 49 c.config.senderCompId
  let m := m.set 56 c.config.targetCompId
  let m := m.set 52 nowTs
  let m := m.set 7 (Bytes.natBytes start)
  let m := m.set 16 (Bytes.natBytes endSeq)
  (Response.outbound m, c)

/-- `FixConnection::on_high_seqnum` (connection.rs 537-541): re-reads
MsgSeqNum (the `unwrap` is the outer `Option`), calls `get_incr_inbound` —
incrementing the inbound counter — and emits the resend request for
`[expected, received]`. -/
def on_high_seqnum (c : FixConnection) (nowTs : List Nat) (msg : FixMessage) :
    Option (Response × FixConnection) :=
  (msg.fvU64 34).map (fun msgSeqNum =>
    let p := c.seqNumbers.get_incr_inbound
    make_resend_request { c with seqNumbers := p.2 } nowTs p.1 msgSeqNum)

/-- `FixConnection::on_low_seqnum` (connection.rs 464-466). -/
def on_low_seqnum (c : FixConnection) (nowTs : List Nat) (_msg : FixMessage) :
    Response × FixConnection :=
  make_logout c nowTs (msgSeqNumText c.seqNumbers.nextInbound)

/-- `FixConnection::on_missing_seqnum` (connection.rs 460-462). -/
def on_missing_seqnum (c : FixConnection) (nowTs : List Nat) (_msg : FixMessage) :
    Response × FixConnection :=
  make_logout c nowTs missingFieldText

/-- `FixConnection::on_wrong_environment` (connection.rs 439-444); the
backend call is an observability hook. -/
def on_wrong_environment (c : FixConnection) (nowTs : List Nat) (_msg : FixMessage) :
    Response × FixConnection :=
  make_logout c nowTs productionEnvText

/-- `FixConnection::on_reject` (connection.rs 468-492): a `3` frame with
sender, target, fresh MsgSeqNum, optional RefTagID(371) and
RefMsgType(372), SessionRejectReason(373) and Text.  No SendingTime is
set. -/
def on_reject (c : FixConnection) (_refSeqNum : Nat) (refTag : Option Nat)
    (refMsgType : Option (List Nat)) (reason : Nat) (errText : List Nat) :
    Response × FixConnection :=
  let p := c.seqNumbers.get_incr_outbound
  let m := start_message c.config.beginString [51]
  let m := m.set 49 c.config.senderCompId
  let m := m.set 56 c.config.targetCompId
  let m := m.set 34 (Bytes.natBytes p.1)
  let m := match refTag with
    | some rt => m.set 371 (Bytes.natBytes rt)
    | none => m
  let m := match refMsgType with
    | some rmt => m.set 372 rmt
    | none => m
  let m := m.set 373 (Bytes.natBytes reason)
  let m := m.set 58 errText
  (Response.outbound m, { c with seqNumbers := p.2 })

/-- `FixConnection::make_reject_for_inaccurate_sending_time` (connection.rs
494-507): both `unwrap`s are the outer `Option`. -/
def make_reject_for_inaccurate_sending_time (c : FixConnection) (msg : FixMessage) :
    Option (Response × FixConnection) :=
  (msg.fvU64 34).bind (fun refSeqNum =>
    (msg.fvRaw 35).map (fun refMsgType =>
      on_reject c refSeqNum (some 52) (some refMsgType) 10 badSendingTimeText))

/-- `FixConnection::on_test_request` (connection.rs 422-437): echoes
TestReqID(112) (the `unwrap` is the outer `Option`) in a frame built with
`start_message(begin_string, buffer, b"1")` — MsgType `1`, not `0`. -/
def on_test_request (c : FixConnection) (nowTs : List Nat) (msg : FixMessage) :
    Option (OutMsg × FixConnection) :=
  (msg.fvRaw 112).map (fun testReqId =>
    let p := c.seqNumbers.get_incr_outbound
    let m := start_message c.config.beginString [49]
    let m := m.set 49 c.config.senderCompId
    let m := m.set 56 c.config.targetCompId
    let m := m.set 34 (Bytes.natBytes p.1)
    let m := m.set 52 nowTs
    let m := m.set 112 testReqId
    (m, { c with seqNumbers := p.2 }))

/-- `FixConnection::on_logout` (connection.rs 360-378): a `5` frame with
sender, target, fresh MsgSeqNum and `Text=Logout`.  No SendingTime is
set. -/
def on_logout (c : FixConnection) (_msg : FixMessage) : OutMsg × FixConnection :=
  let p := c.seqNumbers.get_incr_outbound
  let m := start_message c.config.beginString [53]
  let m := m.set 49 c.config.senderCompId
  let m := m.set 56 c.config.targetCompId
  let m := m.set 34 (Bytes.natBytes p.1)
  let m := m.set 58 logoutText
  (m, { c with seqNumbers := p.2 })

/-- `FixConnection::on_heartbeat_is_due` (connection.rs 390-403): a `0`
frame with sender, target, fresh MsgSeqNum and SendingTime. -/
def on_heartbeat_is_due (c : FixConnection) (nowTs : List Nat) :
    OutMsg × FixConnection :=
  let p := c.seqNumbers.get_incr_outbound
  let m := start_message c.config.beginString [48]
  let m := m.set 49 c.config.senderCompId
  let m := m.set 56 c.config.targetCompId
  let m := m.set 34 (Bytes.natBytes p.1)
  let m := m.set 52 nowTs
  (m, { c with seqNumbers := p.2 })

/-- `FixConnection::dispatch_by_msg_type` (connection.rs 274-297).
`on_logon` only records the message (its unfinished encoder frame touches
the scratch buffer alone), `2` is ignored, `0` resets the heartbeat, any
unknown type is delivered as an application message. -/
def dispatch_by_msg_type (c : FixConnection) (nowTs : List Nat)
    (msgType : List Nat) (msg : FixMessage) : Option (Response × FixConnection) :=
  if msgType = [65] then some (Response.rnone, c)
  else if msgType = [49] then
    (on_test_request c nowTs msg).map (fun p => (Response.outbound p.1, p.2))
  else if msgType = [50] then some (Response.rnone, c)
  else if msgType = [53] then
    let p := on_logout c msg
    some (Response.outbound p.1, p.2)
  else if msgType = [48] then some (Response.resetHeartbeat, c)
  else some (Response.application msg, c)

/-- `FixConnection::on_inbound_message` (connection.rs 299-351): the
environment check, the MsgSeqNum extraction and classification, the
immediate inbound increment, the SendingTime check, and the MsgType
dispatch.  `utcNow`/`parseTs`/`nowTs` stand for the ambient clock and the
timestamp codec.  The outer `Option` is `none` on a source panic. -/
def on_inbound_message (c : FixConnection) (utcNow : Int)
    (parseTs : List Nat → Option Int) (nowTs : List Nat) (msg : FixMessage) :
    Option (Response × FixConnection) :=
  if verify_test_message_indicator c.config msg = false then
    some (on_wrong_environment c nowTs msg)
  else
    match msg.fvU64 34 with
    | none => some (on_missing_seqnum c nowTs msg)
    | some n =>
      match c.seqNumbers.validate_inbound n with
      | some SeqNumberError.recover => on_high_seqnum c nowTs msg
      | some SeqNumberError.tooLow => some (on_low_seqnum c nowTs msg)
      | some SeqNumberError.noSeqNum => none
      | none =>
        let c2 := { c with seqNumbers := c.seqNumbers.get_incr_inbound.2 }
        if verify_sending_time utcNow parseTs msg = false then
          make_reject_for_inaccurate_sending_time c2 msg
        else
          match msg.fvRaw 35 with
          | some mt => dispatch_by_msg_type c2 nowTs mt msg
          | none => some (Response.application msg, c2)

/-- Outcome of `decoder.try_parse()` after a read completes
(`num_bytes_read < num_bytes_required` and `Ok(None)` both `continue` and
are `needsMore`). -/
inductive ParseOut
  | needsMore
  | ready
  | bad
deriving DecidableEq, Repr

/-- One completion of the four-way `select!` in `next_event` (event_loop.rs
79-125): the transport read finishing with its outcome, or one of the three
timers firing.  Real instants and the timer arithmetic are outside the
shallow embedding; a `Wake` list is the sequence of completions the
suspension point observes. -/
inductive Wake
  | readErr
  | readBytes (p : ParseOut)
  | timerHeartbeat
  | timerTestRequest
  | timerLogout
deriving DecidableEq, Repr

/-- `LlEvent`, without payloads. -/
inductive LlEv
  | message
  | badMessage
  | ioErr
  | heartbeat
  | testRequest
  | logoutEv
deriving DecidableEq, Repr

/-- `LlEventLoop::next_event` (event_loop.rs 59-127) as a function of the
`is_alive` flag and the completions its internal loop observes.  The result
is the flag after the call, plus `some r` when the call returns — `r = none`
is Rust's `None` (end of stream), `r = some e` yields event `e` — or `none`
when the completion list is exhausted while the loop is still awaiting.  A
decode error sets `is_alive = false` and yields `BadMessage`; the logout
timer does the same and yields `Logout`; a dead loop returns `None` at
once. -/
def next_event (alive : Bool) (ws : List Wake) : Bool × Option (Option LlEv) :=
  if alive = false then (alive, some none)
  else
    match ws with
    | [] => (alive, none)
    | w :: ws =>
      match w with
      | Wake.readErr => (alive, some (some LlEv.ioErr))
      | Wake.readBytes ParseOut.needsMore => next_event alive ws
      | Wake.readBytes ParseOut.ready => (alive, some (some LlEv.message))
      | Wake.readBytes ParseOut.bad => (false, some (some LlEv.badMessage))
      | Wake.timerHeartbeat => (alive, some (some LlEv.heartbeat))
      | Wake.timerTestRequest => (alive, some (some LlEv.testRequest))
      | Wake.timerLogout => (false, some (some LlEv.logoutEv))

/-- C8 counterexample: the claim states that after a framing/syntax error
`next_event` yields `BadMessage` and the loop remains alive.  It does yield
`BadMessage`, but it sets `is_alive = false`; the next call returns Rust's
`None` (end of stream) instead of awaiting — while a live loop would have
yielded the parsed message. -/
theorem c8_bad_message_kills_loop :
    next_event true [Wake.readBytes ParseOut.bad]
      = (false, some (some LlEv.badMessage)) ∧
    next_event false [Wake.readBytes ParseOut.ready] = (false, some none) ∧
    next_event true [Wake.readBytes ParseOut.ready]
      = (true, some (some LlEv.message)) := ⟨rfl, rfl, rfl⟩

/-- C8 (amended): a framing or syntax error makes `next_event` yield
`BadMessage` and marks the loop dead; every subsequent call returns
end-of-stream immediately, whatever the transport or timers do. -/
theorem c8_bad_message_marks_dead (ws : List Wake) :
    next_event true (Wake.readBytes ParseOut.bad :: ws)
      = (false, some (some LlEv.badMessage)) ∧
    next_event false ws = (false, some none) := by
  refine ⟨rfl, ?_⟩
  cases ws with
  | nil => rfl
  | cons w ws => rfl

/-- C5 counterexample: the claim states `verify_sending_time` succeeds iff
`|now − t| < 1 s`, so a timestamp ten minutes in the future must fail; the
source compares `utc_now - time < 1 s` without an absolute value, so it
passes. -/
theorem c5_future_sending_time_passes :
    verify_sending_time 0 (fun _ => some (600 * oneSecond)) ⟨[(52, [116])]⟩ = true ∧
    ¬((0 - 600 * oneSecond : Int).natAbs < oneSecond.natAbs) := by
  constructor
  · rfl
  · decide

/-- C5 (amended): `verify_sending_time` succeeds iff SendingTime(52) is
present, parses, and `now − t < 1 second` — a signed one-sided bound:
absent or unparseable fields and timestamps one second or more in the past
fail, while arbitrarily future timestamps pass. -/
theorem c5_sending_time_characterization (utcNow : Int)
    (parseTs : List Nat → Option Int) (msg : FixMessage) :
    verify_sending_time utcNow parseTs msg = true ↔
      ∃ raw time, msg.fvRaw 52 = some raw ∧ parseTs raw = some time ∧
        utcNow - time < oneSecond := by
  rw [verify_sending_time]
  match hr : msg.fvRaw 52 with
  | none => simp
  | some raw =>
    match hp : parseTs raw with
    | none => simp [hp]
    | some time => simp [hp, decide_eq_true_eq]

/-- C6: with the check disabled `verify_test_message_indicator` always
passes; with it enabled it passes exactly when TestMessageIndicator(464) is
absent, or is `Y` in `Testing`/`Production{allow_test: true}`, or is `N` in
any `Production`. -/
theorem c6_test_indicator_characterization (cfg : Config) (msg : FixMessage) :
    verify_test_message_indicator cfg msg = true ↔
      (cfg.verifyTestIndicator = false ∨ msg.fvRaw 464 = none ∨
       (msg.fvRaw 464 = some [89] ∧
         (cfg.environment = Environment.testing
          ∨ cfg.environment = Environment.production true)) ∨
       (msg.fvRaw 464 = some [78] ∧ cfg.environment.isProduction = true)) := by
  rw [verify_test_message_indicator]
  by_cases hflag : cfg.verifyTestIndicator
  · rw [if_neg (by simp [hflag])]
    match hr : msg.fvRaw 464 with
    | none => simp [hflag]
    | some v =>
      dsimp only
      by_cases hy : v = [89] ∧ (cfg.environment = Environment.testing
          ∨ cfg.environment = Environment.production true)
      · rw [if_pos hy]
        simp [hflag, hy.1, hy.2]
      · rw [if_neg hy]
        by_cases hn : v = [78] ∧ cfg.environment.isProduction = true
        · rw [if_pos hn]
          simp [hflag, hn.1, hn.2]
        · rw [if_neg hn]
          constructor
          · intro hc; exact absurd hc (by simp)
          · intro hc
            rcases hc with h | h | ⟨h1, h2⟩ | ⟨h1, h2⟩
            · exact absurd h (by simp [hflag])
            · exact absurd h (by simp)
            · injection h1 with h1
              exact absurd ⟨h1, h2⟩ hy
            · injection h1 with h1
              exact absurd ⟨h1, h2⟩ hn
  · have hflag2 : cfg.verifyTestIndicator = false := by
      cases hcv : cfg.verifyTestIndicator
      · rfl
      · exact absurd hcv hflag
    simp [hflag2]

/-- C10: with the check enabled, any present TestMessageIndicator(464)
value other than exactly `Y` or `N` fails in every environment. -/
theorem c10_unknown_indicator_rejected (cfg : Config) (msg : FixMessage)
    (v : List Nat) (hflag : cfg.verifyTestIndicator = true)
    (hv : msg.fvRaw 464 = some v) (hY : v ≠ [89]) (hN : v ≠ [78]) :
    verify_test_message_indicator cfg msg = false := by
  rw [verify_test_message_indicator]
  rw [if_neg (by simp [hflag])]
  rw [hv]
  dsimp only
  rw [if_neg (fun hc => hY hc.1)]
  rw [if_neg (fun hc => hN hc.1)]

/-- C10 witness: lowercase `y` is rejected even in the `Testing`
environment. -/
theorem c10_unknown_indicator_rejected_witness :
    verify_test_message_indicator
      ⟨[], [], [], Environment.testing, 30, true⟩ ⟨[(464, [121])]⟩ = false :=
  c10_unknown_indicator_rejected _ _ [121] rfl rfl (by decide) (by decide)

/-- A session configuration used by the concrete dispatch evaluations:
`FIX.4.4`, sender `SNDR`, target `TGTR`, production environment, indicator
check disabled. -/
def sessCfg : Config :=
  ⟨[70, 73, 88, 46, 52, 46, 52], [83, 78, 68, 82], [84, 71, 84, 82],
   Environment.production false, 30, false⟩

/-- A freshly constructed connection: both counters at 1. -/
def sessConn : FixConnection := ⟨sessCfg, SeqNumbers.default⟩

/-- C1: the claim states that a TestRequest passing the environment,
sequence-number and SendingTime checks is answered with a Heartbeat
(`MsgType=0`) echoing TestReqID(112).  Dispatching the TestRequest
`35=1, 34=1, 52=<now>, 112=RQ1` does echo `112=RQ1`, but the reply frame is
built with `start_message(.., b"1")`: its MsgType is `1` (byte 49), not the
`0` (byte 48) the claim — and spec §9, which flags this as a source bug —
requires. -/
theorem c1_test_request_reply_eval :
    on_inbound_message sessConn 0 (fun _ => some 0) [116]
        ⟨[(35, [49]), (34, [49]), (52, [116]), (112, [82, 81, 49])]⟩
      = some (Response.outbound
          ⟨[70, 73, 88, 46, 52, 46, 52], [49],
           [(49, [83, 78, 68, 82]), (56, [84, 71, 84, 82]), (34, [49]),
            (52, [116]), (112, [82, 81, 49])]⟩,
          ⟨sessCfg, ⟨2, 2⟩⟩) ∧
    ([49] : List Nat) ≠ [48] := ⟨rfl, by decide⟩

/-- C4: the claim states that an inbound message with MsgSeqNum above the
expected value triggers a ResendRequest with `BeginSeqNo = expected`,
`EndSeqNo = received` and leaves `next_inbound` unchanged.  Dispatching
`35=BE, 34=5` against `next_inbound = 1` does emit `2` with `7=1`, `16=5`,
but `on_high_seqnum` calls `get_incr_inbound`, leaving `next_inbound = 2`
instead of 1 (spec §9 flags this and says to follow the FIX rule). -/
theorem c4_high_seqnum_eval :
    on_inbound_message sessConn 0 (fun _ => some 0) [116]
        ⟨[(35, [66, 69]), (34, [53])]⟩
      = some (Response.outbound
          ⟨[70, 73, 88, 46, 52, 46, 52], [50],
           [(49, [83, 78, 68, 82]), (56, [84, 71, 84, 82]), (52, [116]),
            (7, [49]), (16, [53])]⟩,
          ⟨sessCfg, ⟨2, 1⟩⟩) ∧
    (2 : Nat) ≠ 1 := ⟨rfl, by decide⟩

/-- C9: the claim states that every administrative reply carries a
MsgSeqNum drawn from the outbound counter and a SendingTime.  The Logout
reply built by `on_logout` has fields 49, 56, 34, 58 only — no
SendingTime(52) — and the ResendRequest built by `make_resend_request` has
fields 49, 56, 52, 7, 16 only — no MsgSeqNum(34) — and returns the
connection with `next_outbound` untouched even though a message is
emitted. -/
theorem c9_admin_reply_fields_eval :
    on_logout sessConn ⟨[]⟩
      = (⟨[70, 73, 88, 46, 52, 46, 52], [53],
          [(49, [83, 78, 68, 82]), (56, [84, 71, 84, 82]), (34, [49]),
           (58, logoutText)]⟩,
         ⟨sessCfg, ⟨1, 2⟩⟩) ∧
    ((on_logout sessConn ⟨[]⟩).1.fields.all (fun f => decide (f.1 ≠ 52))) = true ∧
    make_resend_request sessConn [116] 1 5
      = (Response.outbound
          ⟨[70, 73, 88, 46, 52, 46, 52], [50],
           [(49, [83, 78, 68, 82]), (56, [84, 71, 84, 82]), (52, [116]),
            (7, [49]), (16, [53])]⟩,
         sessConn) ∧
    ((make_resend_request sessConn [116] 1 5).2.seqNumbers.nextOutbound
      = sessConn.seqNumbers.nextOutbound) := ⟨rfl, rfl, rfl, rfl⟩

end Fefix
